import Mathlib

/-!
Verification of the mesh-merge logic of `Task2_Blender_Addon/addon.py`:
face matching (`mesh_faces_match`), common-face detection
(`find_common_faces`), merge-failure classification
(`_classify_merge_failure_reason` with its vertex adapter
`_mesh_vertex_positions`), the merge gate of
`merge_meshes_with_common_faces`, and the duplicate-face removal loop of
its post-join cleanup.

Embedding conventions.  Python floats are embedded as rationals (`ℚ`).
Euclidean distances (`(Vector(va) - Vector(vb)).length`, a square root)
are carried as squared distances; the comparisons `d <= epsilon` and
`min_dist > epsilon` are embedded by their exact square characterizations
(`distLe`, `distGt`), valid for every rational `epsilon` because a real
distance is nonnegative.  Python's stable `sorted` by the coordinate
triple is embedded by insertion sort under the total lexicographic order
`vecLexLe`: the sort key is the entire value, so elements comparing equal
are identical and every correct sort yields the same list.  Python's
`round(x, 5)` (round half to even) is `round5`.
-/

namespace CFDForge

/-- A 3D point (a Blender `Vector` / vertex coordinate triple), with
rational coordinates standing for the Python floats. -/
structure Vec3 where
  x : ℚ
  y : ℚ
  z : ℚ
  deriving DecidableEq, Repr, Inhabited

/-- The numerical tolerance `FACE_EPSILON = 1e-6` of addon.py. -/
def FACE_EPSILON : ℚ := 1 / 1000000

/-- One iteration of the inner loop of `mesh_faces_match`: vertices `a`
and `b` stay matched when no axis differs by more than `epsilon`
(the code breaks on `abs(a[k] - b[k]) > epsilon` for some axis `k`). -/
def vertClose (a b : Vec3) (eps : ℚ) : Bool :=
  decide (|a.x - b.x| ≤ eps) && decide (|a.y - b.y| ≤ eps) &&
    decide (|a.z - b.z| ≤ eps)

/-- The body of the `for offset in range(n)` loop of `mesh_faces_match`:
all `n` vertex pairs at this cyclic offset are within `epsilon`. -/
def faceMatchAt (f1_verts f2_verts : List Vec3) (eps : ℚ) (offset : ℕ) : Bool :=
  (List.range f1_verts.length).all fun i =>
    vertClose (f1_verts.getD i default)
      (f2_verts.getD ((i + offset) % f1_verts.length) default) eps

/-- `mesh_faces_match` of addon.py: `False` when the vertex counts differ,
otherwise `True` exactly when some cyclic offset aligns all vertices
within `epsilon` per axis. -/
def mesh_faces_match (f1_verts f2_verts : List Vec3) (eps : ℚ) : Bool :=
  decide (f1_verts.length = f2_verts.length) &&
    (List.range f1_verts.length).any (faceMatchAt f1_verts f2_verts eps)

/-- The total lexicographic order on coordinate triples used by Python's
`sorted(..., key=lambda v: (v[0], v[1], v[2]))` and tuple `sort()`. -/
def vecLexLe (a b : Vec3) : Bool :=
  decide (a.x < b.x) ||
    (decide (a.x = b.x) &&
      (decide (a.y < b.y) || (decide (a.y = b.y) && decide (a.z ≤ b.z))))

/-- Insert a vertex into a `vecLexLe`-sorted list, keeping it sorted. -/
def insertSorted (a : Vec3) : List Vec3 → List Vec3
  | [] => [a]
  | b :: bs => if vecLexLe a b then a :: b :: bs else b :: insertSorted a bs

/-- Python's `sorted` of a vertex list under the lexicographic coordinate
order (insertion sort; `vecLexLe` is total and antisymmetric, so this is
the unique sorted rearrangement `sorted` also produces). -/
def sortVerts : List Vec3 → List Vec3
  | [] => []
  | a :: vs => insertSorted a (sortVerts vs)

/-- A Blender object as the merge logic reads it: its `obj.type` string,
its world-space vertex positions (`obj.matrix_world @ v.co` for the mesh
vertices), and its polygons, each given as its world-space vertex loop
(`get_face_world_verts obj face`). -/
structure MeshObject where
  objType : String
  verts : List Vec3
  polys : List (List Vec3)
  deriving DecidableEq, Repr, Inhabited

/-- One inner-loop test of `find_common_faces`: both faces canonically
sorted by coordinates, then compared with `mesh_faces_match`. -/
def matchesSorted (fa fb : List Vec3) (eps : ℚ) : Bool :=
  mesh_faces_match (sortVerts fa) (sortVerts fb) eps

/-- `find_common_faces` of addon.py: for non-mesh input the empty list;
otherwise, for each face index `i` of `obj_a`, the pair `(i, j)` where
`j` is the first face of `obj_b` matching it (the inner loop breaks on
the first match), omitted when no face of `obj_b` matches. -/
def find_common_faces (obj_a obj_b : MeshObject) (eps : ℚ) : List (ℕ × ℕ) :=
  if obj_a.objType = "MESH" ∧ obj_b.objType = "MESH" then
    obj_a.polys.enum.filterMap fun p =>
      (List.findIdx? (fun fb => matchesSorted p.2 fb eps) obj_b.polys).map
        fun j => (p.1, j)
  else []

/-- `_mesh_vertex_positions` of addon.py: the world-space vertex list,
or `[]` when the object is not a mesh or has no vertices. -/
def meshVertexPositions (obj : MeshObject) : List Vec3 :=
  if obj.objType = "MESH" ∧ obj.verts ≠ [] then obj.verts else []

/-- Squared Euclidean distance between two points; stands for the square
of `(Vector(va) - Vector(vb)).length`. -/
def dist2 (a b : Vec3) : ℚ :=
  (a.x - b.x) ^ 2 + (a.y - b.y) ^ 2 + (a.z - b.z) ^ 2

/-- Exact embedding of `sqrt d2 ≤ e` over the rationals (`d2` a squared
distance): true when `e` is nonnegative and `d2 ≤ e ^ 2`. -/
def distLe (d2 e : ℚ) : Bool := decide (0 ≤ e) && decide (d2 ≤ e ^ 2)

/-- Exact embedding of `sqrt d2 > e`, the complement of `distLe`. -/
def distGt (d2 e : ℚ) : Bool := !distLe d2 e

/-- The squared distances of all vertex pairs `(va, vb)` scanned by the
double loop of `_classify_merge_failure_reason`, in loop order. -/
def pairDists (obj_a obj_b : MeshObject) : List ℚ :=
  (meshVertexPositions obj_a).flatMap fun va =>
    (meshVertexPositions obj_b).map fun vb => dist2 va vb

/-- The classifier's `touch_count`: vertex pairs within `epsilon`. -/
def touchCount (obj_a obj_b : MeshObject) (eps : ℚ) : ℕ :=
  ((pairDists obj_a obj_b).filter fun d => distLe d eps).length

/-- `_classify_merge_failure_reason` of addon.py.  The second branch `if
min_dist > epsilon` is embedded as all pairwise distances exceeding
`epsilon` (the minimum of a nonempty finite list exceeds `epsilon` if and
only if every member does; for empty vertex lists the first branch
returns first, as in the code). -/
def classifyMergeFailureReason (obj_a obj_b : MeshObject) (eps : ℚ) : String :=
  if meshVertexPositions obj_a = [] ∨ meshVertexPositions obj_b = [] then "gap"
  else if (pairDists obj_a obj_b).all (fun d => distGt d eps) then "gap"
  else if 2 ≤ touchCount obj_a obj_b eps then "edge-touch"
  else "corner-touch"

/-- Outcome of `merge_meshes_with_common_faces`: the early `return False`
for fewer than two objects, the `return False` of the no-common-face
branch carrying the classified reason, or `return True` after the join,
weld and cleanup (the Blender operations of the success path). -/
inductive MergeOutcome where
  | failInsufficient : MergeOutcome
  | failNoCommon : String → MergeOutcome
  | success : MergeOutcome
  deriving DecidableEq, Repr

/-- The index pairs `(i, j)` with `i < j < n` in the order the nested
loops `for i in range(n): for j in range(i + 1, n)` visit them. -/
def indexPairs (n : ℕ) : List (ℕ × ℕ) :=
  (List.range n).flatMap fun i =>
    (List.range n).filterMap fun j => if i < j then some (i, j) else none

/-- The `has_common` flag of `merge_meshes_with_common_faces`: some pair
`i < j` of the inputs has a nonempty `find_common_faces` list (the code
calls it with the default `FACE_EPSILON`). -/
def hasCommonPair (objects : List MeshObject) : Bool :=
  (indexPairs objects.length).any fun ij =>
    !(find_common_faces (objects.getD ij.1 default) (objects.getD ij.2 default)
        FACE_EPSILON).isEmpty

/-- The reason computed by the failure branch of
`merge_meshes_with_common_faces`: the classification of the first pair
(in loop order) whose classification is not `"gap"`, else `"gap"` (the
nested loops break out as soon as `reason != "gap"`). -/
def mergeFailureReason (objects : List MeshObject) : String :=
  match (indexPairs objects.length).find? (fun ij =>
      decide (classifyMergeFailureReason (objects.getD ij.1 default)
        (objects.getD ij.2 default) FACE_EPSILON ≠ "gap")) with
  | some ij => classifyMergeFailureReason (objects.getD ij.1 default)
      (objects.getD ij.2 default) FACE_EPSILON
  | none => "gap"

/-- `merge_meshes_with_common_faces` of addon.py, to the depth the gate
decides: fewer than two objects fail immediately (before the common-face
scan); a set with no commonly-faced pair fails with the classified
reason; otherwise the join, weld and face cleanup run and it returns
`True`. -/
def merge_meshes_with_common_faces (objects : List MeshObject) : MergeOutcome :=
  if objects.length < 2 then MergeOutcome.failInsufficient
  else if hasCommonPair objects then MergeOutcome.success
  else MergeOutcome.failNoCommon (mergeFailureReason objects)

/-- A bmesh face as the duplicate-removal loop reads it: the indices of
its vertices in the (post-weld) vertex table, and its area.  `area`
stands for the value `f.calc_area()` reports; that computation lives in
the bmesh library, not in addon.py, so it is carried as an attribute. -/
structure BMFace where
  verts : List ℕ
  area : ℚ
  deriving DecidableEq, Repr, Inhabited

/-- Python's `round` to an integer: nearest, ties to even. -/
def roundHalfEven (q : ℚ) : ℤ :=
  if q - ⌊q⌋ < 1 / 2 then ⌊q⌋
  else if (1 : ℚ) / 2 < q - ⌊q⌋ then ⌊q⌋ + 1
  else if ⌊q⌋ % 2 = 0 then ⌊q⌋ else ⌊q⌋ + 1

/-- Python's `round(x, 5)`: round to the nearest multiple of `1e-5`,
ties to even. -/
def round5 (q : ℚ) : ℚ := (roundHalfEven (q * 100000) : ℚ) / 100000

/-- A vertex with each coordinate rounded to 5 decimals, as in the
`verts_key` generator of the duplicate-removal loop. -/
def roundedVert (v : Vec3) : Vec3 := ⟨round5 v.x, round5 v.y, round5 v.z⟩

/-- The `verts_key` of a face in the duplicate-removal loop: the sorted
tuple of its vertices' rounded coordinates. -/
def faceKey (tbl : List Vec3) (f : BMFace) : List Vec3 :=
  sortVerts (f.verts.map fun i => roundedVert (tbl.getD i default))

/-- The degenerate-area threshold `1e-10` of the cleanup loop. -/
def AREA_EPSILON : ℚ := 1 / 10000000000

/-- The `for f in bm.faces` loop of the cleanup step of
`merge_meshes_with_common_faces`, with `seen` the set of keys kept so
far: a face whose key was already seen, or whose area is below `1e-10`,
goes to `to_remove`; otherwise it is kept and its key recorded.  The
result is the faces remaining after `bm.faces.remove`. -/
def removeDuplicateFacesGo (tbl : List Vec3) (seen : List (List Vec3)) :
    List BMFace → List BMFace
  | [] => []
  | f :: fs =>
    if faceKey tbl f ∈ seen ∨ f.area < AREA_EPSILON then
      removeDuplicateFacesGo tbl seen fs
    else f :: removeDuplicateFacesGo tbl (faceKey tbl f :: seen) fs

/-- The duplicate/degenerate face removal of the merge executor (lines
349..363 of addon.py), starting from an empty `seen` set. -/
def remove_duplicate_faces (tbl : List Vec3) (faces : List BMFace) : List BMFace :=
  removeDuplicateFacesGo tbl [] faces

/-- Reference semantics for keep-first deduplication by a key: keep the
head, drop every later face with the same key, recurse. -/
def keepFirstByKey (key : BMFace → List Vec3) : List BMFace → List BMFace
  | [] => []
  | f :: fs => f :: keepFirstByKey key (fs.filter fun g => decide (key g ≠ key f))
termination_by l => l.length
decreasing_by
  simp only [List.length_cons]
  exact Nat.lt_succ_of_le (List.length_filter_le _ _)

/-- The duplicate criterion of the spec's words for claim C8: the two
faces' vertex-index sets are identical regardless of order. -/
def sameVertexIndexSet (f g : BMFace) : Bool :=
  f.verts.all (fun i => g.verts.contains i) &&
    g.verts.all (fun i => f.verts.contains i)

/-! Concrete fixtures used by witnesses and counterexamples. -/

/-- The four vertices of `v` at indices `a b c d`, as a quadrilateral loop. -/
def quadOf (v : List Vec3) (a b c d : ℕ) : List Vec3 :=
  [v.getD a default, v.getD b default, v.getD c default, v.getD d default]

/-- Corner coordinates of an axis-aligned unit cube centered at `(cx, 0, 0)`:
the eight points at offsets `±1/2` from the center. -/
def cubeVerts (cx : ℚ) : List Vec3 :=
  [⟨cx - 1/2, -(1/2), -(1/2)⟩, ⟨cx - 1/2, -(1/2), 1/2⟩,
   ⟨cx - 1/2, 1/2, 1/2⟩, ⟨cx - 1/2, 1/2, -(1/2)⟩,
   ⟨cx + 1/2, -(1/2), -(1/2)⟩, ⟨cx + 1/2, -(1/2), 1/2⟩,
   ⟨cx + 1/2, 1/2, 1/2⟩, ⟨cx + 1/2, 1/2, -(1/2)⟩]

/-- An axis-aligned unit-cube mesh centered at `(cx, 0, 0)`: 8 vertices and
6 quadrilateral faces (`-x`, `+x`, `-y`, `+y`, `-z`, `+z` in that order). -/
def mkCube (cx : ℚ) : MeshObject :=
  ⟨"MESH", cubeVerts cx,
   [quadOf (cubeVerts cx) 0 1 2 3, quadOf (cubeVerts cx) 4 5 6 7,
    quadOf (cubeVerts cx) 0 1 5 4, quadOf (cubeVerts cx) 3 2 6 7,
    quadOf (cubeVerts cx) 0 3 7 4, quadOf (cubeVerts cx) 1 2 6 5]⟩

/-- A triangle near the origin. -/
def triNear : List Vec3 := [⟨0, 0, 0⟩, ⟨1, 0, 0⟩, ⟨0, 1, 0⟩]

/-- The same triangle translated far along the x axis. -/
def triFar : List Vec3 := [⟨100, 0, 0⟩, ⟨101, 0, 0⟩, ⟨100, 1, 0⟩]

/-- A single-triangle mesh at the origin. -/
def meshTriNear : MeshObject := ⟨"MESH", triNear, [triNear]⟩

/-- A single-triangle mesh far from the origin. -/
def meshTriFar : MeshObject := ⟨"MESH", triFar, [triFar]⟩

/-- A two-face mesh listing the near triangle first. -/
def meshTwoA : MeshObject := ⟨"MESH", triNear ++ triFar, [triNear, triFar]⟩

/-- A two-face mesh listing the same faces in the opposite order. -/
def meshTwoB : MeshObject := ⟨"MESH", triNear ++ triFar, [triFar, triNear]⟩

/-- A degenerate two-vertex face. -/
def segVerts : List Vec3 := [⟨0, 0, 0⟩, ⟨1, 0, 0⟩]

/-- A mesh whose only polygon is the degenerate two-vertex face. -/
def meshSeg : MeshObject := ⟨"MESH", segVerts, [segVerts]⟩

/-- An object that is not a mesh (its `obj.type` is `"EMPTY"`). -/
def nonMeshObj : MeshObject := ⟨"EMPTY", [⟨0, 0, 0⟩], []⟩

/-- A post-weld vertex table where vertex 3 sits `4e-6` from vertex 0:
farther apart than the weld threshold `1e-6`, yet rounding both
coordinates to 5 decimals gives the same triple. -/
def dupTbl : List Vec3 := [⟨0, 0, 0⟩, ⟨1, 0, 0⟩, ⟨0, 1, 0⟩, ⟨1/250000, 0, 0⟩]

/-- A triangle on vertices 0, 1, 2 of `dupTbl`. -/
def dupF0 : BMFace := ⟨[0, 1, 2], 1/2⟩

/-- A triangle on vertices 3, 1, 2 of `dupTbl`: a different vertex-index
set than `dupF0`, but the same rounded-coordinate key. -/
def dupF1 : BMFace := ⟨[3, 1, 2], 1/2⟩

/-! Theorems. -/

/-- Claim C9: calling the merge with fewer than 2 mesh objects fails
immediately with the insufficient-input outcome — and only then; the
early-return branch precedes the common-face scan, join, weld and face
removal, so no partial work is modelled in that outcome. -/
theorem merge_insufficient_input_iff (objects : List MeshObject) :
    merge_meshes_with_common_faces objects = MergeOutcome.failInsufficient ↔
      objects.length < 2 := by
  unfold merge_meshes_with_common_faces
  by_cases h : objects.length < 2
  · simp [h]
  · simp only [if_neg h]
    split <;> simp [h]

/-- Claim C5: for two axis-aligned unit cubes centered at the origin and
at `(1, 0, 0)`, `find_common_faces` at tolerance `1e-6` returns exactly
one pair — the `+x` face of cube A (index 1) with the `-x` face of cube
B (index 0) — and both of those faces lie in the plane `x = 1/2`. -/
theorem unit_cubes_single_common_face :
    find_common_faces (mkCube 0) (mkCube 1) FACE_EPSILON = [(1, 0)] ∧
    (∀ v ∈ (mkCube 0).polys.getD 1 [], v.x = 1 / 2) ∧
    (∀ v ∈ (mkCube 1).polys.getD 0 [], v.x = 1 / 2) := by
  with_unfolding_all decide

/-- Claim C4 counterexample: a two-vertex face is not rejected —
`mesh_faces_match` declares two coincident two-vertex faces a match, and
`find_common_faces` reports that pair as a common face. -/
theorem small_face_match_not_rejected :
    mesh_faces_match segVerts segVerts FACE_EPSILON = true ∧
    find_common_faces meshSeg meshSeg FACE_EPSILON = [(0, 0)] := by
  with_unfolding_all decide

/-- Claim C4 as amended: the only vertex-count condition either function
imposes is that the two compared faces have equal counts — a mismatch
returns false, and a face with fewer than 3 vertices is processed like
any other, up to being reported as a common face. -/
theorem mesh_faces_match_arity_check_only :
    (∀ f1_verts f2_verts : List Vec3, ∀ eps : ℚ,
      f1_verts.length ≠ f2_verts.length →
        mesh_faces_match f1_verts f2_verts eps = false) ∧
    mesh_faces_match segVerts segVerts FACE_EPSILON = true ∧
    find_common_faces meshSeg meshSeg FACE_EPSILON = [(0, 0)] := by
  refine ⟨fun f1 f2 eps h => ?_, ?_, ?_⟩
  · simp [mesh_faces_match, h]
  · with_unfolding_all decide
  · with_unfolding_all decide

/-- Claim C8 counterexample: the cleanup loop discards `dupF1` as a
duplicate of `dupF0` although their vertex-index sets differ — duplicate
detection keys on rounded world coordinates, not on vertex-index sets. -/
theorem dedup_keys_not_vertex_index_sets :
    remove_duplicate_faces dupTbl [dupF0, dupF1] = [dupF0] ∧
    sameVertexIndexSet dupF0 dupF1 = false := by
  with_unfolding_all decide

/-! Helper lemmas. -/

/-- A vertex is within every nonnegative tolerance of itself. -/
lemma vertClose_refl (v : Vec3) (eps : ℚ) (heps : 0 ≤ eps) :
    vertClose v v eps = true := by
  simp [vertClose, heps]

/-- Per-vertex closeness is symmetric. -/
lemma vertClose_symm (a b : Vec3) (eps : ℚ) :
    vertClose a b eps = vertClose b a eps := by
  simp only [vertClose, abs_sub_comm]

/-- Adding `k` after shifting by the complementary offset `(n - k % n) % n`
returns every index `i < n` to itself modulo `n`. -/
lemma rotIndexCancel (n i k : ℕ) (hn : 0 < n) (hi : i < n) :
    ((i + (n - k % n) % n) % n + k) % n = i := by
  have hk : k % n < n := Nat.mod_lt _ hn
  rw [Nat.mod_add_mod]
  rcases Nat.eq_zero_or_pos (k % n) with h0 | hpos
  · rw [h0, Nat.sub_zero, Nat.mod_self, Nat.add_zero]
    obtain ⟨q, rfl⟩ := Nat.dvd_of_mod_eq_zero h0
    rw [Nat.mul_comm, Nat.add_mul_mod_self_right, Nat.mod_eq_of_lt hi]
  · have hlt : n - k % n < n := by omega
    rw [Nat.mod_eq_of_lt hlt, Nat.add_mod (i + (n - k % n)) k, Nat.mod_add_mod]
    rw [show i + (n - k % n) + k % n = i + n by omega]
    rw [Nat.add_mod_right, Nat.mod_eq_of_lt hi]

/-- If some offset aligns `f1` with `f2`, the complementary offset aligns
`f2` with `f1`; hence a true match is symmetric. -/
lemma mesh_faces_match_true_symm (f1_verts f2_verts : List Vec3) (eps : ℚ)
    (h : mesh_faces_match f1_verts f2_verts eps = true) :
    mesh_faces_match f2_verts f1_verts eps = true := by
  unfold mesh_faces_match at h ⊢
  rw [Bool.and_eq_true] at h
  obtain ⟨hlen, hany⟩ := h
  have hlen2 : f1_verts.length = f2_verts.length := of_decide_eq_true hlen
  rw [List.any_eq_true] at hany
  obtain ⟨o, ho, hall⟩ := hany
  rw [List.mem_range] at ho
  have hn : 0 < f1_verts.length := by omega
  rw [Bool.and_eq_true]
  refine ⟨decide_eq_true hlen2.symm, ?_⟩
  rw [List.any_eq_true]
  refine ⟨(f1_verts.length - o % f1_verts.length) % f1_verts.length, ?_, ?_⟩
  · rw [List.mem_range, ← hlen2]
    exact Nat.mod_lt _ hn
  · unfold faceMatchAt
    rw [List.all_eq_true]
    intro j hj
    rw [List.mem_range, ← hlen2] at hj
    unfold faceMatchAt at hall
    rw [List.all_eq_true] at hall
    have hi : (j + (f1_verts.length - o % f1_verts.length) % f1_verts.length) %
        f1_verts.length < f1_verts.length := Nat.mod_lt _ hn
    have hspec := hall _ (List.mem_range.mpr hi)
    have hidx := rotIndexCancel f1_verts.length j o hn hj
    rw [hidx] at hspec
    rw [← hlen2]
    rw [vertClose_symm]
    exact hspec

/-- The classifier's literal results. -/
lemma classify_result_cases (obj_a obj_b : MeshObject) (eps : ℚ) :
    classifyMergeFailureReason obj_a obj_b eps = "gap" ∨
    classifyMergeFailureReason obj_a obj_b eps = "edge-touch" ∨
    classifyMergeFailureReason obj_a obj_b eps = "corner-touch" := by
  unfold classifyMergeFailureReason
  split_ifs <;> simp

/-- The failure branch's overall reason is always one of the three
contact classes. -/
lemma mergeFailureReason_cases (objects : List MeshObject) :
    mergeFailureReason objects = "gap" ∨
    mergeFailureReason objects = "edge-touch" ∨
    mergeFailureReason objects = "corner-touch" := by
  unfold mergeFailureReason
  split
  · exact classify_result_cases _ _ _
  · left; rfl

/-- Membership in the loop-order pair list is exactly `i < j < n`. -/
lemma mem_indexPairs {n i j : ℕ} : (i, j) ∈ indexPairs n ↔ i < j ∧ j < n := by
  unfold indexPairs
  simp only [List.mem_flatMap, List.mem_filterMap, List.mem_range]
  constructor
  · rintro ⟨a, ha, b, hb, hab⟩
    by_cases h : a < b
    · rw [if_pos h, Option.some.injEq, Prod.mk.injEq] at hab
      obtain ⟨rfl, rfl⟩ := hab
      exact ⟨h, hb⟩
    · rw [if_neg h] at hab
      exact absurd hab (by simp)
  · rintro ⟨hij, hjn⟩
    exact ⟨i, by omega, j, hjn, by rw [if_pos hij]⟩

/-! Claim theorems (continued). -/

/-- Claim C3: a face of at least 3 vertices matches every cyclic rotation
of its own vertex loop, for every nonnegative tolerance: the offset
complementary to the rotation amount aligns all vertices exactly. -/
theorem mesh_faces_match_rotation_invariant (F : List Vec3) (k : ℕ) (eps : ℚ)
    (hF : 3 ≤ F.length) (heps : 0 ≤ eps) :
    mesh_faces_match F (F.rotate k) eps = true := by
  have hn : 0 < F.length := by omega
  unfold mesh_faces_match
  rw [Bool.and_eq_true]
  refine ⟨decide_eq_true (List.length_rotate F k).symm, ?_⟩
  rw [List.any_eq_true]
  refine ⟨(F.length - k % F.length) % F.length,
    List.mem_range.mpr (Nat.mod_lt _ hn), ?_⟩
  unfold faceMatchAt
  rw [List.all_eq_true]
  intro i hi
  rw [List.mem_range] at hi
  have hm : (i + (F.length - k % F.length) % F.length) % F.length < F.length :=
    Nat.mod_lt _ hn
  have hm2 : (i + (F.length - k % F.length) % F.length) % F.length <
      (F.rotate k).length := by rw [List.length_rotate]; exact hm
  rw [List.getD_eq_get F default hi, List.getD_eq_get (F.rotate k) default hm2,
    List.get_rotate]
  have hidx := rotIndexCancel F.length i k hn hi
  simp only [hidx]
  exact vertClose_refl _ _ heps

/-- Witness for C3 at the concrete triangle, rotation 1, tolerance 0. -/
theorem mesh_faces_match_rotation_invariant_witness :
    mesh_faces_match triNear (triNear.rotate 1) 0 = true :=
  mesh_faces_match_rotation_invariant triNear 1 0 (by decide) (le_refl 0)

/-- Claim C7: `mesh_faces_match` is symmetric in its two faces for every
tolerance (matching offsets come in complementary pairs). -/
theorem mesh_faces_match_symm (f1_verts f2_verts : List Vec3) (eps : ℚ) :
    mesh_faces_match f1_verts f2_verts eps =
      mesh_faces_match f2_verts f1_verts eps :=
  Bool.eq_iff_iff.mpr ⟨mesh_faces_match_true_symm f1_verts f2_verts eps,
    mesh_faces_match_true_symm f2_verts f1_verts eps⟩

/-- Claim C10: when either object contributes no vertex positions — in
particular when it is not a mesh object, for which the adapter yields the
empty list — the classifier answers `"gap"` through its first branch. -/
theorem classifier_empty_verts_gap (obj_a obj_b : MeshObject) (eps : ℚ)
    (h : meshVertexPositions obj_a = [] ∨ meshVertexPositions obj_b = []) :
    classifyMergeFailureReason obj_a obj_b eps = "gap" ∧
    (obj_a.objType ≠ "MESH" → meshVertexPositions obj_a = []) := by
  constructor
  · unfold classifyMergeFailureReason
    rw [if_pos h]
  · intro hm
    unfold meshVertexPositions
    rw [if_neg]
    intro hand
    exact hm hand.1

/-- Witness for C10 at a non-mesh object paired with a triangle mesh. -/
theorem classifier_empty_verts_gap_witness :
    classifyMergeFailureReason nonMeshObj meshTriNear FACE_EPSILON = "gap" ∧
    (nonMeshObj.objType ≠ "MESH" → meshVertexPositions nonMeshObj = []) :=
  classifier_empty_verts_gap nonMeshObj meshTriNear FACE_EPSILON
    (Or.inl (by decide))

/-- Claim C2: for objects that each contribute at least one vertex, the
classifier answers `"gap"` exactly when every pairwise distance exceeds
`epsilon` (that is, the minimum distance does); otherwise `"edge-touch"`
exactly when at least two vertex pairs are within `epsilon`, and
`"corner-touch"` exactly when exactly one is; and the answer is always
one of the three values. -/
theorem classifier_trichotomy (obj_a obj_b : MeshObject) (eps : ℚ)
    (ha : meshVertexPositions obj_a ≠ []) (hb : meshVertexPositions obj_b ≠ []) :
    (classifyMergeFailureReason obj_a obj_b eps = "gap" ↔
      ∀ d ∈ pairDists obj_a obj_b, distGt d eps = true) ∧
    (classifyMergeFailureReason obj_a obj_b eps = "edge-touch" ↔
      ¬ (∀ d ∈ pairDists obj_a obj_b, distGt d eps = true) ∧
        2 ≤ touchCount obj_a obj_b eps) ∧
    (classifyMergeFailureReason obj_a obj_b eps = "corner-touch" ↔
      ¬ (∀ d ∈ pairDists obj_a obj_b, distGt d eps = true) ∧
        touchCount obj_a obj_b eps = 1) ∧
    (classifyMergeFailureReason obj_a obj_b eps = "gap" ∨
     classifyMergeFailureReason obj_a obj_b eps = "edge-touch" ∨
     classifyMergeFailureReason obj_a obj_b eps = "corner-touch") := by
  unfold classifyMergeFailureReason
  rw [if_neg (by simp [ha, hb])]
  by_cases hall : (pairDists obj_a obj_b).all (fun d => distGt d eps) = true
  · rw [if_pos hall]
    rw [List.all_eq_true] at hall
    exact ⟨iff_of_true rfl hall,
      iff_of_false (by simp) (fun hx => hx.1 hall),
      iff_of_false (by simp) (fun hx => hx.1 hall),
      Or.inl rfl⟩
  · rw [if_neg hall]
    have hne : ¬ ∀ d ∈ pairDists obj_a obj_b, distGt d eps = true := by
      rw [← List.all_eq_true]
      exact hall
    have h1 : 1 ≤ touchCount obj_a obj_b eps := by
      rw [List.all_eq_true] at hall
      push_neg at hall
      obtain ⟨d, hd, hdgt⟩ := hall
      have hdle : distLe d eps = true := by
        unfold distGt at hdgt
        cases hx : distLe d eps
        · exact absurd (by rw [hx]; rfl) hdgt
        · rfl
      have hmemf : d ∈ (pairDists obj_a obj_b).filter fun x => distLe x eps :=
        List.mem_filter.mpr ⟨hd, hdle⟩
      unfold touchCount
      exact List.length_pos.mpr (List.ne_nil_of_mem hmemf)
    by_cases h2 : 2 ≤ touchCount obj_a obj_b eps
    · rw [if_pos h2]
      exact ⟨iff_of_false (by simp) hne,
        iff_of_true rfl ⟨hne, h2⟩,
        iff_of_false (by simp) (fun hx => by omega),
        Or.inr (Or.inl rfl)⟩
    · rw [if_neg h2]
      exact ⟨iff_of_false (by simp) hne,
        iff_of_false (by simp) (fun hx => h2 hx.2),
        iff_of_true rfl ⟨hne, by omega⟩,
        Or.inr (Or.inr rfl)⟩

/-- Witness for C2 at two disjoint single-triangle meshes. -/
theorem classifier_trichotomy_witness :
    (classifyMergeFailureReason meshTriNear meshTriFar FACE_EPSILON = "gap" ↔
      ∀ d ∈ pairDists meshTriNear meshTriFar, distGt d FACE_EPSILON = true) ∧
    (classifyMergeFailureReason meshTriNear meshTriFar FACE_EPSILON = "edge-touch" ↔
      ¬ (∀ d ∈ pairDists meshTriNear meshTriFar, distGt d FACE_EPSILON = true) ∧
        2 ≤ touchCount meshTriNear meshTriFar FACE_EPSILON) ∧
    (classifyMergeFailureReason meshTriNear meshTriFar FACE_EPSILON = "corner-touch" ↔
      ¬ (∀ d ∈ pairDists meshTriNear meshTriFar, distGt d FACE_EPSILON = true) ∧
        touchCount meshTriNear meshTriFar FACE_EPSILON = 1) ∧
    (classifyMergeFailureReason meshTriNear meshTriFar FACE_EPSILON = "gap" ∨
     classifyMergeFailureReason meshTriNear meshTriFar FACE_EPSILON = "edge-touch" ∨
     classifyMergeFailureReason meshTriNear meshTriFar FACE_EPSILON = "corner-touch") :=
  classifier_trichotomy meshTriNear meshTriFar FACE_EPSILON (by decide) (by decide)

/-- Claim C1: for at least two input objects, the merge fails (no merged
mesh, no join) exactly when every pair `i < j` of inputs has an empty
`find_common_faces` list; and on that failure the carried reason is the
classifier-derived overall reason, one of `"gap"`, `"edge-touch"`,
`"corner-touch"`. -/
theorem merge_gate_failure_iff (objects : List MeshObject)
    (h2 : 2 ≤ objects.length) :
    (merge_meshes_with_common_faces objects ≠ MergeOutcome.success ↔
      ∀ i j : ℕ, i < j → j < objects.length →
        find_common_faces (objects.getD i default) (objects.getD j default)
          FACE_EPSILON = []) ∧
    (∀ r, merge_meshes_with_common_faces objects = MergeOutcome.failNoCommon r →
      r = mergeFailureReason objects ∧
      (r = "gap" ∨ r = "edge-touch" ∨ r = "corner-touch")) := by
  have hnot : ¬ objects.length < 2 := by omega
  unfold merge_meshes_with_common_faces
  rw [if_neg hnot]
  by_cases hc : hasCommonPair objects = true
  · rw [if_pos hc]
    constructor
    · constructor
      · intro habs
        exact absurd rfl habs
      · intro hall
        exfalso
        unfold hasCommonPair at hc
        rw [List.any_eq_true] at hc
        obtain ⟨ij, hmem, hne⟩ := hc
        obtain ⟨i, j⟩ := ij
        obtain ⟨hij, hjn⟩ := mem_indexPairs.mp hmem
        rw [hall i j hij hjn] at hne
        exact absurd hne (by simp)
    · intro r hr
      exact absurd hr (by simp)
  · rw [if_neg hc]
    constructor
    · constructor
      · intro _ i j hij hjn
        unfold hasCommonPair at hc
        have hnone : ¬ ((!(find_common_faces (objects.getD i default)
            (objects.getD j default) FACE_EPSILON).isEmpty) = true) := by
          intro hne
          exact hc (List.any_eq_true.mpr
            ⟨(i, j), mem_indexPairs.mpr ⟨hij, hjn⟩, hne⟩)
        have hbe : (find_common_faces (objects.getD i default)
            (objects.getD j default) FACE_EPSILON).isEmpty = true := by
          cases hbb : (find_common_faces (objects.getD i default)
              (objects.getD j default) FACE_EPSILON).isEmpty
          · exact absurd (by rw [hbb]; rfl) hnone
          · rfl
        exact List.isEmpty_iff.mp hbe
      · intro _
        simp
    · intro r hr
      have hrr : mergeFailureReason objects = r := by
        rwa [MergeOutcome.failNoCommon.injEq] at hr
      exact ⟨hrr.symm, hrr ▸ mergeFailureReason_cases objects⟩

/-- Witness for C1 at two disjoint single-triangle meshes. -/
theorem merge_gate_failure_iff_witness :
    (merge_meshes_with_common_faces [meshTriNear, meshTriFar] ≠
        MergeOutcome.success ↔
      ∀ i j : ℕ, i < j → j < ([meshTriNear, meshTriFar] : List MeshObject).length →
        find_common_faces
          (([meshTriNear, meshTriFar] : List MeshObject).getD i default)
          (([meshTriNear, meshTriFar] : List MeshObject).getD j default)
          FACE_EPSILON = []) ∧
    (∀ r, merge_meshes_with_common_faces [meshTriNear, meshTriFar] =
        MergeOutcome.failNoCommon r →
      r = mergeFailureReason [meshTriNear, meshTriFar] ∧
      (r = "gap" ∨ r = "edge-touch" ∨ r = "corner-touch")) :=
  merge_gate_failure_iff [meshTriNear, meshTriFar] (by decide)

/-- Mapping `Prod.fst` over a `filterMap` that preserves first components
yields a sublist of the original first components. -/
lemma map_fst_filterMap_sublist {α β : Type} (g : ℕ × α → Option (ℕ × β))
    (hg : ∀ p q, g p = some q → q.1 = p.1) (l : List (ℕ × α)) :
    ((l.filterMap g).map Prod.fst).Sublist (l.map Prod.fst) := by
  induction l with
  | nil => simp
  | cons x xs ih =>
    rw [List.filterMap_cons]
    cases hgx : g x with
    | none =>
      rw [List.map_cons]
      exact ih.cons _
    | some q =>
      rw [List.map_cons, List.map_cons, hg x q hgx]
      exact ih.cons₂ _

/-- Claim C6: each face index of mesh A occurs at most once in the result
(the first components are distinct), and `(i, j)` is reported exactly
when both objects are meshes, `i` indexes a face of A, and `j` is the
first face of B matching it; the concrete two-triangle meshes show two
distinct A faces paired with two distinct B faces. -/
theorem find_common_faces_first_match (obj_a obj_b : MeshObject) (eps : ℚ) :
    ((find_common_faces obj_a obj_b eps).map Prod.fst).Nodup ∧
    (∀ i j : ℕ, (i, j) ∈ find_common_faces obj_a obj_b eps ↔
      (obj_a.objType = "MESH" ∧ obj_b.objType = "MESH" ∧
        i < obj_a.polys.length ∧
        List.findIdx? (fun fb => matchesSorted (obj_a.polys.getD i []) fb eps)
          obj_b.polys = some j)) ∧
    find_common_faces meshTwoA meshTwoB FACE_EPSILON = [(0, 1), (1, 0)] := by
  refine ⟨?_, ?_, ?_⟩
  · unfold find_common_faces
    split
    · have hg : ∀ (p : ℕ × List Vec3) (q : ℕ × ℕ),
          ((List.findIdx? (fun fb => matchesSorted p.2 fb eps) obj_b.polys).map
            fun j => (p.1, j)) = some q → q.1 = p.1 := by
        intro p q hq
        cases hf : List.findIdx? (fun fb => matchesSorted p.2 fb eps) obj_b.polys with
        | none => rw [hf] at hq; exact absurd hq (by simp)
        | some j =>
          rw [hf] at hq
          simp only [Option.map_some', Option.some.injEq] at hq
          rw [← hq]
      have hsub := map_fst_filterMap_sublist _ hg obj_a.polys.enum
      refine hsub.nodup ?_
      rw [List.enum_map_fst]
      exact List.nodup_range _
    · simp
  · intro i j
    unfold find_common_faces
    split
    case isTrue h =>
      rw [List.mem_filterMap]
      constructor
      · rintro ⟨⟨pi, pa⟩, hmem, hgp⟩
        rw [List.mem_enum_iff_getElem?] at hmem
        rw [Option.map_eq_some'] at hgp
        obtain ⟨j0, hfind, heq⟩ := hgp
        simp only [Prod.mk.injEq] at heq
        obtain ⟨rfl, rfl⟩ := heq
        simp only at hmem hfind
        have hlt : pi < obj_a.polys.length := by
          rcases List.getElem?_eq_some.mp hmem with ⟨hl, _⟩
          exact hl
        have hpa : obj_a.polys.getD pi [] = pa := by
          rcases List.getElem?_eq_some.mp hmem with ⟨hl, hv⟩
          rw [List.getD_eq_getElem _ _ hl, hv]
        refine ⟨h.1, h.2, hlt, ?_⟩
        rw [hpa]
        exact hfind
      · rintro ⟨hA, hB, hi, hfind⟩
        refine ⟨(i, obj_a.polys.getD i []), ?_, ?_⟩
        · rw [List.mem_enum_iff_getElem?]
          simp only
          rw [List.getElem?_eq_getElem hi, List.getD_eq_getElem _ _ hi]
        · simp only
          rw [hfind]
          rfl
    case isFalse h =>
      simp only [List.not_mem_nil, false_iff]
      intro hx
      exact h ⟨hx.1, hx.2.1⟩
  · with_unfolding_all decide

/-- The cleanup loop with accumulator `seen` computes keep-first
deduplication of the non-degenerate faces whose key is not in `seen`: a
degenerate face is dropped without recording its key, matching the loop,
which only adds `verts_key` to `seen` on the kept branch. -/
lemma removeDuplicateFacesGo_eq (tbl : List Vec3) (fs : List BMFace) :
    ∀ seen : List (List Vec3),
    removeDuplicateFacesGo tbl seen fs =
      keepFirstByKey (faceKey tbl)
        (fs.filter fun g =>
          decide (¬ g.area < AREA_EPSILON ∧ faceKey tbl g ∉ seen)) := by
  induction fs with
  | nil =>
    intro seen
    rw [List.filter_nil, removeDuplicateFacesGo, keepFirstByKey]
  | cons f fs ih =>
    intro seen
    unfold removeDuplicateFacesGo
    by_cases harea : f.area < AREA_EPSILON
    · rw [if_pos (Or.inr harea)]
      rw [List.filter_cons_of_neg (by simp [harea])]
      exact ih seen
    · by_cases hs : faceKey tbl f ∈ seen
      · rw [if_pos (Or.inl hs)]
        rw [List.filter_cons_of_neg (by simp [hs])]
        exact ih seen
      · rw [if_neg (by push_neg; exact ⟨hs, not_lt.mp harea⟩)]
        rw [List.filter_cons_of_pos (by simp [harea, hs])]
        rw [keepFirstByKey]
        congr 1
        rw [ih (faceKey tbl f :: seen), List.filter_filter]
        congr 1
        apply List.filter_congr
        intro g _
        by_cases h1 : faceKey tbl g = faceKey tbl f <;>
          by_cases h2 : faceKey tbl g ∈ seen <;>
            by_cases h3 : g.area < AREA_EPSILON <;>
              simp [h1, h2, h3]

/-- A face whose key equals `dupF0`'s but whose area is below `1e-10`. -/
def dupF0deg : BMFace := ⟨[0, 1, 2], 0⟩

/-- Claim C8 as amended: the cleanup drops every face of area below
`1e-10` unconditionally (without recording its key), and among the
remaining faces keeps exactly the first occurrence of each duplicate
group and discards the rest, where two faces are duplicates exactly when
their sorted rounded-coordinate keys coincide (not their vertex-index
sets — see the counterexample).  The concrete conjunct runs the mixed
case: a degenerate face is dropped and does not shadow the later face
with the same key. -/
theorem remove_duplicate_faces_keeps_first (tbl : List Vec3)
    (faces : List BMFace) :
    remove_duplicate_faces tbl faces =
      keepFirstByKey (faceKey tbl)
        (faces.filter fun f => decide (¬ f.area < AREA_EPSILON)) ∧
    remove_duplicate_faces dupTbl [dupF0deg, dupF1] = [dupF1] := by
  constructor
  · unfold remove_duplicate_faces
    rw [removeDuplicateFacesGo_eq tbl faces []]
    congr 1
    apply List.filter_congr
    intro g _
    by_cases h3 : g.area < AREA_EPSILON <;> simp [h3]
  · with_unfolding_all decide

end CFDForge
